import Mathlib

/-!
Verification of the Base85 codec (`base85.cpp`) and the `CryptoString`
tagged-value type (`cryptostring.cpp`) of libmensago, against the
natural-language specification.

Shallow embedding conventions:
* a `QByteArray` is a `List Nat` of byte values (each `< 256`);
* a `QString` is a `List Nat` of Latin-1 character codes;
* `uint32_t` arithmetic is `Nat` arithmetic reduced `% 4294967296` (2^32)
  at every operation that can overflow, exactly as in the source;
* the implicit C++ conversion `(uint32_t)ch` of a (signed) `char` holding
  byte value `b` sign-extends when `b ≥ 128`; this is modelled explicitly
  by `signExt`;
* reading `s[i]` past the end of a `QString` is undefined behaviour in the
  source; the embedding models any such out-of-range read as decode
  failure (`Option.none`).
-/

namespace Mensago

/-- The 85-character alphabet `B85_TO_CHAR` of base85.cpp, as Latin-1 codes:
`0123456789ABCDEFGHIJKLMNOPQRSTUVWXYZabcdefghijklmnopqrstuvwxyz`
followed by the symbols `!#$%&()*+-;<=>?@^_` backquote `{|}~`. -/
def B85_TO_CHAR : List Nat :=
  [48, 49, 50, 51, 52, 53, 54, 55, 56, 57,
   65, 66, 67, 68, 69, 70, 71, 72, 73, 74, 75, 76, 77, 78, 79, 80,
   81, 82, 83, 84, 85, 86, 87, 88, 89, 90,
   97, 98, 99, 100, 101, 102, 103, 104, 105, 106, 107, 108, 109, 110,
   111, 112, 113, 114, 115, 116, 117, 118, 119, 120, 121, 122,
   33, 35, 36, 37, 38, 40, 41, 42, 43, 45, 59, 60, 61, 62, 63, 64,
   94, 95, 96, 123, 124, 125, 126]

/-- `byte_to_c85`: digit value (0–84) to alphabet character.  The source
indexes `B85_TO_CHAR[c85]` after checking `c85 ≤ 84`; every call site
passes a quotient/remainder that is at most 84, so the guard never fires
and the function is pure table lookup. -/
def byte_to_c85 (d : Nat) : Nat := B85_TO_CHAR.getD d 0

/-- `c85_to_byte`: alphabet character to digit value, returning the
sentinel 255 for a character outside the alphabet (the `return 255`
after the `switch` in the source). -/
def c85_to_byte (b : Nat) : Nat :=
  if 48 ≤ b ∧ b ≤ 57 then b - 48
  else if 65 ≤ b ∧ b ≤ 90 then b - 65 + 10
  else if 97 ≤ b ∧ b ≤ 122 then b - 97 + 36
  else if b = 33 then 62        -- !
  else if b = 35 then 63        -- #
  else if b = 36 then 64        -- $
  else if b = 37 then 65        -- %
  else if b = 38 then 66        -- &
  else if b = 40 then 67        -- (
  else if b = 41 then 68        -- )
  else if b = 42 then 69        -- *
  else if b = 43 then 70        -- +
  else if b = 45 then 71        -- -
  else if b = 59 then 72        -- ;
  else if b = 60 then 73        -- <
  else if b = 61 then 74        -- =
  else if b = 62 then 75        -- >
  else if b = 63 then 76        -- ?
  else if b = 64 then 77        -- @
  else if b = 94 then 78        -- ^
  else if b = 95 then 79        -- _
  else if b = 96 then 80        -- backquote
  else if b = 123 then 81       -- left brace
  else if b = 124 then 82       -- |
  else if b = 125 then 83       -- right brace
  else if b = 126 then 84       -- ~
  else 255                      -- sentinel: "We should never be here"

/-- The value of `(uint32_t)c` where the signed `char` `c` holds byte
value `b < 256`: bytes ≥ 128 sign-extend to `0xFFFFFF00 + b`. -/
def signExt (b : Nat) : Nat := if b < 128 then b else 4294967040 + b

/-- The 32-bit group value built from a full 4-byte chunk
(`base85encode`, lines 65–68): left shifts of the sign-extended bytes,
OR-ed together in `uint32_t`. -/
def chunkValue (b0 b1 b2 b3 : Nat) : Nat :=
  Nat.lor (Nat.lor (Nat.lor ((signExt b0 <<< 24) % 4294967296)
    ((signExt b1 <<< 16) % 4294967296)) ((signExt b2 <<< 8) % 4294967296))
    (signExt b3 % 4294967296)

/-- The five alphabet characters emitted for a full chunk value
(`base85encode`, lines 70–83): repeated division by 85⁴, 85³, 85², 85. -/
def encodeChunk (v : Nat) : List Nat :=
  [byte_to_c85 (v / 52200625),
   byte_to_c85 (v % 52200625 / 614125),
   byte_to_c85 (v % 52200625 % 614125 / 7225),
   byte_to_c85 (v % 52200625 % 614125 % 7225 / 85),
   byte_to_c85 (v % 52200625 % 614125 % 7225 % 85)]

/-- The 32-bit value packed from the 1–3 leftover bytes
(`base85encode`, lines 91–105): shift-and-OR each sign-extended byte,
then shift in `4 - extra` zero pad bytes, all in `uint32_t`. -/
def lastChunkValue (bs : List Nat) : Nat :=
  (bs.foldl (fun acc b => Nat.lor ((acc <<< 8) % 4294967296) (signExt b % 4294967296)) 0
    <<< (8 * (4 - bs.length))) % 4294967296

/-- The `extra + 1` characters emitted for a trailing group of `extra`
leftover bytes (`base85encode`, lines 107–126): always the two leading
digits, the third when `extra > 1`, the fourth when `extra > 2`. -/
def encodeLastGroup (v : Nat) (extra : Nat) : List Nat :=
  [byte_to_c85 (v / 52200625), byte_to_c85 (v % 52200625 / 614125)]
  ++ (if extra > 1 then [byte_to_c85 (v % 52200625 % 614125 / 7225)] else [])
  ++ (if extra > 2 then [byte_to_c85 (v % 52200625 % 614125 % 7225 / 85)] else [])

/-- The chunk loop of `base85encode`: `length / 4` full 4-byte groups from
the front, then the `length % 4` leftover bytes through the padded path. -/
def encodeGroups : List Nat → List Nat
  | [] => []
  | b0 :: b1 :: b2 :: b3 :: rest =>
      encodeChunk (chunkValue b0 b1 b2 b3) ++ encodeGroups rest
  | bs => encodeLastGroup (lastChunkValue bs) bs.length

/-- `base85encode` (base85.cpp, lines 54–128): clears the output, returns
the empty string on empty input, otherwise emits the groups. -/
def base85encode (ba : List Nat) : List Nat :=
  if ba.length = 0 then [] else encodeGroups ba

/-- `QChar::isSpace` restricted to the code points that can appear here:
space, the control whitespace 0x09–0x0D, NEL 0x85 and NBSP 0xA0. -/
def qcharIsSpace (c : Nat) : Bool :=
  c = 32 || (9 ≤ c && c ≤ 13) || c = 133 || c = 160

/-- Reading `n` non-whitespace characters from the stream, skipping
whitespace (the `isSpace → i--; in_index++; continue` pattern of
`base85decode`).  Running off the end of the string — which the source
does with an out-of-range `s[in_index]` — is modelled as `none`. -/
def readSymbolsAux : List Nat → Nat → Option (List Nat × List Nat)
  | rest, 0 => some ([], rest)
  | [], _ + 1 => none
  | c :: rest, n + 1 =>
      if qcharIsSpace c then readSymbolsAux rest (n + 1)
      else match readSymbolsAux rest n with
        | none => none
        | some (cs, r) => some (c :: cs, r)

/-- `readSymbols n s` reads `n` non-whitespace symbols from `s`. -/
def readSymbols (n : Nat) (s : List Nat) : Option (List Nat × List Nat) :=
  readSymbolsAux s n

/-- The accumulator fold of `base85decode`:
`accumulator = accumulator * 85 + digit` in `uint32_t`. -/
def foldDigits (ds : List Nat) : Nat :=
  ds.foldl (fun a d => (a * 85 + d) % 4294967296) 0

/-- The full-chunk loop of `base85decode` (lines 143–164): for each of the
`length / 5` chunks, read 5 non-whitespace symbols, fold their digit
values, and emit the accumulator's 4 bytes big-endian. -/
def decodeFullChunks : Nat → List Nat → Option (List Nat × List Nat)
  | 0, rest => some ([], rest)
  | n + 1, rest =>
      match readSymbols 5 rest with
      | none => none
      | some (cs, r) =>
          let acc := foldDigits (cs.map c85_to_byte)
          match decodeFullChunks n r with
          | none => none
          | some (out, r2) =>
              some ([acc / 16777216 % 256, acc / 65536 % 256,
                     acc / 256 % 256, acc % 256] ++ out, r2)

/-- The byte pushes of the trailing-group `switch (remainder)` of
`base85decode` (lines 194–213): 3 bytes for remainder 4, 2 for 3, 1 for
2, and nothing for remainder 1 (no `case 1` exists). -/
def remBytes (rem : Nat) (acc : Nat) : List Nat :=
  if rem = 4 then [acc / 16777216 % 256, acc / 65536 % 256, acc / 256 % 256]
  else if rem = 3 then [acc / 16777216 % 256, acc / 65536 % 256]
  else if rem = 2 then [acc / 16777216 % 256]
  else []

/-- `base85decode` (base85.cpp, lines 131–217).  Fails on empty input.
Chunk count and remainder are computed from the raw string length
(whitespace included); each chunk then consumes 5 non-whitespace
symbols and the trailing group consumes `length % 5` of them, treating
the missing positions as the value 126.  `none` also models the
out-of-range reads the source performs when whitespace is present. -/
def base85decode (s : List Nat) : Option (List Nat) :=
  if s.length = 0 then none
  else
    match decodeFullChunks (s.length / 5) s with
    | none => none
    | some (out, rest) =>
        let rem := s.length % 5
        if rem = 0 then some out
        else
          match readSymbols rem rest with
          | none => none
          | some (cs, _) =>
              let acc := foldDigits (cs.map c85_to_byte ++ List.replicate (5 - rem) 126)
              some (out ++ remBytes rem acc)

/-- A character admitted by the tag part `[A-Z0-9-]` of both regular
expressions in cryptostring.cpp. -/
def isTagChar (c : Nat) : Bool :=
  (65 ≤ c && c ≤ 90) || (48 ≤ c && c ≤ 57) || c = 45

/-- A character admitted by the data part of `sCryptoStringPattern`,
written in the source as the character class
`[0-9A-Za-z!#$%&()*+-;<=>?@^_` backquote `{|}~]`.  Inside a PCRE class
the three characters `+-;` form the RANGE from `+` (43) to `;` (59),
which also admits `,` `.` `/` `:` and duplicates the digits; every other
symbol is a literal.  The embedding mirrors the class element by
element, with that range kept as a range. -/
def isDataChar (c : Nat) : Bool :=
  (48 ≤ c && c ≤ 57) || (65 ≤ c && c ≤ 90) || (97 ≤ c && c ≤ 122)
  || c = 33 || c = 35 || c = 36 || c = 37 || c = 38 || c = 40 || c = 41
  || c = 42 || (43 ≤ c && c ≤ 59) || c = 60 || c = 61 || c = 62 || c = 63
  || c = 64 || c = 94 || c = 95 || c = 96 || c = 123 || c = 124 || c = 125
  || c = 126

/-- The index of the first colon (58) in a string, or its length when
there is none (the length of `from.split(":")` part 0). -/
def colonIndex (s : List Nat) : Nat :=
  match s.findIdx? (fun c => c = 58) with
  | some i => i
  | none => s.length

/-- Whether `sCryptoStringPattern`
(`^([A-Z0-9-]{1,24}):([0-9A-Za-z!#$%&()*+-;<=>?@^_` backquote `{|}~]+)$`)
matches a whole string.  Because `:` is not a tag character, the
anchored match forces group 1 to be exactly the text before the first
colon; the data group must be non-empty and each of its characters in
the class described at `isDataChar`. -/
def cryptoStringMatch (s : List Nat) : Bool :=
  let p := colonIndex s
  decide (p < s.length) && decide (1 ≤ p) && decide (p ≤ 24)
  && (s.take p).all isTagChar
  && decide (p + 1 < s.length)
  && (s.drop (p + 1)).all isDataChar

/-- Whether `sCryptoStringPrefixPattern` (`^([A-Z0-9-]{1,24})$`) matches
a whole string: 1 to 24 characters, all tag characters. -/
def tagOnlyMatch (s : List Nat) : Bool :=
  decide (1 ≤ s.length) && decide (s.length ≤ 24) && s.all isTagChar

/-- The fields of a `CryptoString` object: the stored string `fString`,
the cached split point `fSplitPoint`, and the validity flag `fIsValid`. -/
structure CryptoString where
  fString : List Nat
  fSplitPoint : Nat
  fIsValid : Bool
  deriving DecidableEq

/-- `CryptoString::Set` as used by the from-string constructors: on a
pattern match, store the string, the length of the text before the
first colon, and mark valid; otherwise leave the object invalid with an
empty default string.  (The source leaves `fSplitPoint` uninitialized
in the failure case; it is modelled as 0, and no claim depends on it.) -/
def CryptoString.ofString (s : List Nat) : CryptoString :=
  if cryptoStringMatch s then
    { fString := s, fSplitPoint := colonIndex s, fIsValid := true }
  else
    { fString := [], fSplitPoint := 0, fIsValid := false }

/-- The parts constructor `CryptoString(const QString &algorithm, const
QByteArray &from)`: initializes `fIsValid` to `false` and `fSplitPoint`
to 0, returns early if either argument is empty or if
`sCryptoStringPrefixPattern` fails to match `from` — the PAYLOAD, as
written in the source — and otherwise stores
`algorithm + ":" + base85encode(from)`.  No statement in the body ever
sets `fIsValid` to `true` or updates `fSplitPoint`. -/
def CryptoString.ofParts (algorithm : List Nat) (from_ : List Nat) : CryptoString :=
  if algorithm.length = 0 || from_.length = 0 then
    { fString := [], fSplitPoint := 0, fIsValid := false }
  else if !tagOnlyMatch from_ then
    { fString := [], fSplitPoint := 0, fIsValid := false }
  else
    { fString := algorithm ++ [58] ++ base85encode from_,
      fSplitPoint := 0, fIsValid := false }

/-- `CryptoString::IsValid`. -/
def CryptoString.IsValid (cs : CryptoString) : Bool := cs.fIsValid

/-- `CryptoString::AsString`. -/
def CryptoString.AsString (cs : CryptoString) : List Nat := cs.fString

/-- `CryptoString::Prefix`: `fString.first(fSplitPoint)`. -/
def CryptoString.PrefixPart (cs : CryptoString) : List Nat :=
  cs.fString.take cs.fSplitPoint

/-- `CryptoString::Data`: `fString.last(fString.length() - fSplitPoint)`,
i.e. the last `length - fSplitPoint` characters — the suffix starting AT
the split point, colon included. -/
def CryptoString.Data (cs : CryptoString) : List Nat :=
  cs.fString.drop cs.fSplitPoint

/-- `CryptoString::GetRaw`: runs `base85decode(fString, out)` on the FULL
stored string (not on `Data()`), and discards the boolean result (the
method returns `void`).  The embedding returns the decode outcome. -/
def CryptoString.GetRaw (cs : CryptoString) : Option (List Nat) :=
  base85decode cs.fString

/-- Following the spec's words, for comparison with `cryptoStringMatch`:
the grammar `^[A-Z0-9-]{1,24}:[<base85-alphabet>]+$` with the data
portion restricted to exactly the 85-symbol alphabet `B85_TO_CHAR`. -/
def specCryptoStringGrammar (s : List Nat) : Bool :=
  let p := colonIndex s
  decide (p < s.length) && decide (1 ≤ p) && decide (p ≤ 24)
  && (s.take p).all isTagChar
  && decide (p + 1 < s.length)
  && (s.drop (p + 1)).all (fun c => B85_TO_CHAR.contains c)

/-- Following the spec's words, for comparison with `base85decode`: the
same decoder except that the missing trailing symbol positions of a
final short group are treated as the alphabet's maximum digit value 84
(the digit of the character `~`), as section 4.1 of the spec describes,
instead of the value 126 that the source folds in. -/
def base85decodeFill84 (s : List Nat) : Option (List Nat) :=
  if s.length = 0 then none
  else
    match decodeFullChunks (s.length / 5) s with
    | none => none
    | some (out, rest) =>
        let rem := s.length % 5
        if rem = 0 then some out
        else
          match readSymbols rem rest with
          | none => none
          | some (cs, _) =>
              let acc := foldDigits (cs.map c85_to_byte ++ List.replicate (5 - rem) 84)
              some (out ++ remBytes rem acc)

end Mensago

namespace Mensago

/-- C1: the claimed round-trip `base85decode (base85encode b) = some b`
fails for bytes with the high bit set.  `(uint32_t)ba[i]` sign-extends
the signed `char`, OR-ing `0xFF` into every higher byte of the 32-bit
group: `[1, 255]` encodes as the group `0xFFFF0000` and decodes to
`[255, 255]`, and `[0, 255, 0, 0]` decodes to `[255, 255, 0, 0]`.  For
bytes below 128 (here `[97]`) the round-trip does hold. -/
theorem c1_high_bit_roundtrip_fails :
    base85decode (base85encode [1, 255]) = some [255, 255]
    ∧ base85decode (base85encode [0, 255, 0, 0]) = some [255, 255, 0, 0]
    ∧ base85decode (base85encode [97]) = some [97] := by decide

/-- C2: the parts constructor never marks the object valid.  On the
repository's own good test input (`"TEST"`, `"aaaaaa"`) it returns
early because `sCryptoStringPrefixPattern` is matched against the
PAYLOAD (`"aaaaaa"`, which has non-tag characters) rather than the
tag; and even when the payload happens to match the tag pattern
(`"123"`), so that the string `"TEST:F)}j"` is built and stored,
`fIsValid` — initialized to `false` — is never set to `true`. -/
theorem c2_ofParts_never_marks_valid :
    (CryptoString.ofParts [84, 69, 83, 84] [97, 97, 97, 97, 97, 97]).IsValid = false
    ∧ (CryptoString.ofParts [84, 69, 83, 84] [49, 50, 51]).AsString
        = [84, 69, 83, 84, 58, 70, 41, 125, 106]
    ∧ (CryptoString.ofParts [84, 69, 83, 84] [49, 50, 51]).IsValid = false := by decide

/-- C3: validation is NOT the claimed grammar.  In the data class of
`sCryptoStringPattern` the three characters `+-;` form the PCRE range
43–59, so the data portion also admits `,` `.` `/` and a second `:`.
`"TEST:a,b"` and `"TEST:a:b"` are accepted as valid although both fall
outside the spec grammar `^[A-Z0-9-]{1,24}:[<base85-alphabet>]+$`. -/
theorem c3_range_bug_admits_extra_chars :
    (CryptoString.ofString [84, 69, 83, 84, 58, 97, 44, 98]).IsValid = true
    ∧ specCryptoStringGrammar [84, 69, 83, 84, 58, 97, 44, 98] = false
    ∧ (CryptoString.ofString [84, 69, 83, 84, 58, 97, 58, 98]).IsValid = true
    ∧ specCryptoStringGrammar [84, 69, 83, 84, 58, 97, 58, 98] = false := by decide

/-- C4: an input of invalid characters does NOT make decode fail.
`c85_to_byte` returns the sentinel 255 for `.` (code 46), but
`base85decode` never tests for it: `"....."` decodes "successfully",
folding the sentinel into the accumulator and emitting garbage bytes. -/
theorem c4_invalid_char_silently_folded :
    c85_to_byte 46 = 255
    ∧ base85decode [46, 46, 46, 46, 46] = some [34, 218, 44, 211] := by decide

/-- C5: whitespace insertion breaks decoding instead of being tolerated.
The chunk count and remainder are `length / 5` and `length % 5` of the
RAW length, whitespace included, while the read loops skip whitespace
without counting it — so they always demand `length` non-whitespace
symbols and run off the end of the string (undefined behaviour in the
source, `none` in the embedding).  `"VE"` decodes to `[97]`, but
`"V E"`, `"VE "` and `"VPRom VE"` all fail. -/
theorem c5_whitespace_insertion_fails :
    base85decode [86, 69] = some [97]
    ∧ base85decode [86, 32, 69] = none
    ∧ base85decode [86, 69, 32] = none
    ∧ base85decode [86, 80, 82, 111, 109, 32, 86, 69] = none := by decide

/-- C6: `GetRaw` does not decode `Data()`: it passes the FULL stored
string `fString` — tag and colon included — to `base85decode`, and
discards the boolean result.  For the valid object built from
`"TEST:VE"` it produces five garbage bytes, not the result of decoding
the data portion (and neither equals the original payload `[97]`). -/
theorem c6_GetRaw_decodes_full_string :
    (CryptoString.ofString [84, 69, 83, 84, 58, 86, 69]).GetRaw
        = some [90, 193, 89, 223, 97]
    ∧ base85decode ((CryptoString.ofString [84, 69, 83, 84, 58, 86, 69]).Data)
        = some [26, 140]
    ∧ (CryptoString.ofString [84, 69, 83, 84, 58, 86, 69]).GetRaw
        ≠ base85decode ((CryptoString.ofString [84, 69, 83, 84, 58, 86, 69]).Data) := by
  decide

/-- C7 (counterexample): decode does not treat missing trailing symbol
positions as the digit 84.  On the two-symbol input `"0Q"` the source's
fill value 126 yields the byte 1, while the spec's fill value 84
(`base85decodeFill84`) yields the byte 0 — so the decoder, as claimed
(with digit 84), disagrees with the code's observable output. -/
theorem c7_fill_not_84_counterexample :
    base85decode [48, 81] = some [1]
    ∧ base85decodeFill84 [48, 81] = some [0]
    ∧ base85decode [48, 81] ≠ base85decodeFill84 [48, 81] := by decide

/-- The digit/character tables invert each other on the digit range, and
no alphabet character is whitespace. -/
lemma c85_table_roundtrip : ∀ d < 85,
    c85_to_byte (byte_to_c85 d) = d ∧ qcharIsSpace (byte_to_c85 d) = false := by decide

/-- Dividing by `B` is unaffected by subtracting up to `m < c` and adding
`c < B` when the dividend is a multiple of `B`. -/
lemma div_stable (B t m c : Nat) (hB : 0 < B) (hmt : m ≤ B * t) (hm : m < c) (hc : c < B) :
    (B * t - m + c) / B = t := by
  have h1 : B * t - m + c = B * t + (c - m) := by omega
  rw [h1, Nat.mul_add_div hB, Nat.div_eq_of_lt (by omega), Nat.add_zero]

/-- C7 (amended): when `base85decode` folds a final short group, each
missing trailing symbol position contributes the value 126 — the ASCII
code of `~`, not its digit value 84 — to the accumulator fold, and from
the resulting 32-bit accumulator exactly `remainder − 1` leading bytes
are emitted; this still inverts encode's zero-byte padding bit for bit:
for every 32-bit group value `v` whose low `4 − extra` padding bytes are
zero (`extra ∈ {1,2,3}` leftover bytes, `remainder = extra + 1`
symbols), decoding the symbols that `base85encode`'s trailing-group path
emits returns exactly the `extra` leading bytes of `v`. -/
theorem c7_fill126_inverts_encode_padding (v extra : Nat)
    (hx : extra = 1 ∨ extra = 2 ∨ extra = 3)
    (hv : v < 4294967296)
    (hp : v % 2 ^ (8 * (4 - extra)) = 0) :
    base85decode (encodeLastGroup v extra) =
      some ((List.range extra).map fun i => v / 2 ^ (8 * (3 - i)) % 256) := by
  rcases hx with h | h | h <;> subst h <;> norm_num at hp
  · have h0 := c85_table_roundtrip (v / 52200625) (by omega)
    have h1 := c85_table_roundtrip (v % 52200625 / 614125) (by omega)
    simp [encodeLastGroup, base85decode, decodeFullChunks, readSymbols, readSymbolsAux,
      h0.1, h0.2, h1.1, h1.2, foldDigits, remBytes, List.range, List.range.loop]
    set q0 := v / 52200625 with hq0
    set r0 := v % 52200625 with hr0
    set q1 := r0 / 614125 with hq1
    have e0 : v = 52200625 * q0 + r0 := by omega
    have e1 : r0 = 614125 * q1 + r0 % 614125 := by omega
    have b0 : r0 < 52200625 := by omega
    have b1 : r0 % 614125 < 614125 := by omega
    have bq0 : q0 ≤ 81 := by omega
    have bq1 : q1 ≤ 84 := by omega
    rw [Nat.mod_eq_of_lt (show q0 < 4294967296 by omega)]
    rw [Nat.mod_eq_of_lt (show q0 * 85 + q1 < 4294967296 by omega)]
    rw [Nat.mod_eq_of_lt (show (q0 * 85 + q1) * 85 + 126 < 4294967296 by omega)]
    rw [Nat.mod_eq_of_lt (show ((q0 * 85 + q1) * 85 + 126) * 85 + 126 < 4294967296 by omega)]
    rw [Nat.mod_eq_of_lt
      (show (((q0 * 85 + q1) * 85 + 126) * 85 + 126) * 85 + 126 < 4294967296 by omega)]
    have hacc : (((q0 * 85 + q1) * 85 + 126) * 85 + 126) * 85 + 126
        = v - r0 % 614125 + 921186 := by omega
    rw [hacc]
    have key24 : (v - r0 % 614125 + 921186) / 16777216 = v / 16777216 := by
      have hvt : v = 16777216 * (v / 16777216) := by omega
      calc (v - r0 % 614125 + 921186) / 16777216
          = (16777216 * (v / 16777216) - r0 % 614125 + 921186) / 16777216 := by rw [← hvt]
        _ = v / 16777216 :=
            div_stable _ _ _ _ (by norm_num) (by omega) (by omega) (by norm_num)
    rw [key24]
  · have h0 := c85_table_roundtrip (v / 52200625) (by omega)
    have h1 := c85_table_roundtrip (v % 52200625 / 614125) (by omega)
    have h2 := c85_table_roundtrip (v % 52200625 % 614125 / 7225) (by omega)
    simp [encodeLastGroup, base85decode, decodeFullChunks, readSymbols, readSymbolsAux,
      h0.1, h0.2, h1.1, h1.2, h2.1, h2.2, foldDigits, remBytes, List.range, List.range.loop]
    set q0 := v / 52200625 with hq0
    set r0 := v % 52200625 with hr0
    set q1 := r0 / 614125 with hq1
    set r1 := r0 % 614125 with hr1
    set q2 := r1 / 7225 with hq2
    have e0 : v = 52200625 * q0 + r0 := by omega
    have e1 : r0 = 614125 * q1 + r1 := by omega
    have e2 : r1 = 7225 * q2 + r1 % 7225 := by omega
    have b0 : r0 < 52200625 := by omega
    have b1 : r1 < 614125 := by omega
    have b2 : r1 % 7225 < 7225 := by omega
    have bq0 : q0 ≤ 82 := by omega
    have bq1 : q1 ≤ 84 := by omega
    have bq2 : q2 ≤ 84 := by omega
    rw [Nat.mod_eq_of_lt (show q0 < 4294967296 by omega)]
    rw [Nat.mod_eq_of_lt (show q0 * 85 + q1 < 4294967296 by omega)]
    rw [Nat.mod_eq_of_lt (show (q0 * 85 + q1) * 85 + q2 < 4294967296 by omega)]
    rw [Nat.mod_eq_of_lt (show ((q0 * 85 + q1) * 85 + q2) * 85 + 126 < 4294967296 by omega)]
    rw [Nat.mod_eq_of_lt
      (show (((q0 * 85 + q1) * 85 + q2) * 85 + 126) * 85 + 126 < 4294967296 by omega)]
    have hacc : (((q0 * 85 + q1) * 85 + q2) * 85 + 126) * 85 + 126
        = v - r1 % 7225 + 10836 := by omega
    rw [hacc]
    have key16 : (v - r1 % 7225 + 10836) / 65536 = v / 65536 := by
      have hvt : v = 65536 * (v / 65536) := by omega
      calc (v - r1 % 7225 + 10836) / 65536
          = (65536 * (v / 65536) - r1 % 7225 + 10836) / 65536 := by rw [← hvt]
        _ = v / 65536 := div_stable _ _ _ _ (by norm_num) (by omega) (by omega) (by norm_num)
    have key24 : (v - r1 % 7225 + 10836) / 16777216 = v / 16777216 := by
      rw [show (16777216 : Nat) = 65536 * 256 from by norm_num, ← Nat.div_div_eq_div_mul,
        ← Nat.div_div_eq_div_mul, key16]
    rw [key16, key24]
    exact ⟨rfl, rfl⟩
  · have h0 := c85_table_roundtrip (v / 52200625) (by omega)
    have h1 := c85_table_roundtrip (v % 52200625 / 614125) (by omega)
    have h2 := c85_table_roundtrip (v % 52200625 % 614125 / 7225) (by omega)
    have h3 := c85_table_roundtrip (v % 52200625 % 614125 % 7225 / 85) (by omega)
    simp [encodeLastGroup, base85decode, decodeFullChunks, readSymbols, readSymbolsAux,
      h0.1, h0.2, h1.1, h1.2, h2.1, h2.2, h3.1, h3.2, foldDigits, remBytes,
      List.range, List.range.loop]
    set q0 := v / 52200625 with hq0
    set r0 := v % 52200625 with hr0
    set q1 := r0 / 614125 with hq1
    set r1 := r0 % 614125 with hr1
    set q2 := r1 / 7225 with hq2
    set r2 := r1 % 7225 with hr2
    set q3 := r2 / 85 with hq3
    have e0 : v = 52200625 * q0 + r0 := by omega
    have e1 : r0 = 614125 * q1 + r1 := by omega
    have e2 : r1 = 7225 * q2 + r2 := by omega
    have e3 : r2 = 85 * q3 + r2 % 85 := by omega
    have b0 : r0 < 52200625 := by omega
    have b1 : r1 < 614125 := by omega
    have b2 : r2 < 7225 := by omega
    have b3 : r2 % 85 < 85 := by omega
    have bq0 : q0 ≤ 82 := by omega
    have bq1 : q1 ≤ 84 := by omega
    have bq2 : q2 ≤ 84 := by omega
    have bq3 : q3 ≤ 84 := by omega
    rw [Nat.mod_eq_of_lt (show q0 < 4294967296 by omega)]
    rw [Nat.mod_eq_of_lt (show q0 * 85 + q1 < 4294967296 by omega)]
    rw [Nat.mod_eq_of_lt (show (q0 * 85 + q1) * 85 + q2 < 4294967296 by omega)]
    rw [Nat.mod_eq_of_lt (show ((q0 * 85 + q1) * 85 + q2) * 85 + q3 < 4294967296 by omega)]
    rw [Nat.mod_eq_of_lt
      (show (((q0 * 85 + q1) * 85 + q2) * 85 + q3) * 85 + 126 < 4294967296 by omega)]
    have hacc : (((q0 * 85 + q1) * 85 + q2) * 85 + q3) * 85 + 126
        = v - r2 % 85 + 126 := by omega
    rw [hacc]
    have key8 : (v - r2 % 85 + 126) / 256 = v / 256 := by
      have hvt : v = 256 * (v / 256) := by omega
      calc (v - r2 % 85 + 126) / 256
          = (256 * (v / 256) - r2 % 85 + 126) / 256 := by rw [← hvt]
        _ = v / 256 := div_stable _ _ _ _ (by norm_num) (by omega) (by omega) (by norm_num)
    have key16 : (v - r2 % 85 + 126) / 65536 = v / 65536 := by
      rw [show (65536 : Nat) = 256 * 256 from by norm_num, ← Nat.div_div_eq_div_mul,
        ← Nat.div_div_eq_div_mul, key8]
    have key24 : (v - r2 % 85 + 126) / 16777216 = v / 16777216 := by
      rw [show (16777216 : Nat) = 256 * 65536 from by norm_num, ← Nat.div_div_eq_div_mul,
        ← Nat.div_div_eq_div_mul, key8]
    rw [key8, key16, key24]
    exact ⟨rfl, rfl, rfl⟩

/-- C7 (witness): the amended theorem applied at the group value
`0x61000000` (byte 97 padded with three zero bytes, one leftover byte),
whose emitted symbols are `"VE"` and whose decode returns `[97]`. -/
theorem c7_fill126_inverts_encode_padding_witness :
    base85decode (encodeLastGroup 1627389952 1) =
      some ((List.range 1).map fun i => 1627389952 / 2 ^ (8 * (3 - i)) % 256) :=
  c7_fill126_inverts_encode_padding 1627389952 1 (Or.inl rfl) (by decide) (by decide)

/-- C8: empty-input asymmetry, exactly as claimed: `base85encode` of the
empty byte sequence returns the empty string, `base85decode` of the
empty string fails. -/
theorem c8_empty_input_asymmetry :
    base85encode [] = [] ∧ base85decode [] = none := by decide

/-- C9: the fixed reference vectors.  `"a"` is byte 97; the encoded
strings `VE`, `VPO`, `VPRn`, `VPRom`, `VPRomVE`, `VPRomVPRom` are given
by their Latin-1 codes.  Encode maps each byte string to its vector and
decode maps each vector back. -/
theorem c9_known_vectors :
    base85encode [97] = [86, 69]
    ∧ base85encode [97, 97] = [86, 80, 79]
    ∧ base85encode [97, 97, 97] = [86, 80, 82, 110]
    ∧ base85encode [97, 97, 97, 97] = [86, 80, 82, 111, 109]
    ∧ base85encode [97, 97, 97, 97, 97] = [86, 80, 82, 111, 109, 86, 69]
    ∧ base85encode [97, 97, 97, 97, 97, 97, 97, 97]
        = [86, 80, 82, 111, 109, 86, 80, 82, 111, 109]
    ∧ base85decode [86, 69] = some [97]
    ∧ base85decode [86, 80, 79] = some [97, 97]
    ∧ base85decode [86, 80, 82, 110] = some [97, 97, 97]
    ∧ base85decode [86, 80, 82, 111, 109] = some [97, 97, 97, 97]
    ∧ base85decode [86, 80, 82, 111, 109, 86, 69] = some [97, 97, 97, 97, 97]
    ∧ base85decode [86, 80, 82, 111, 109, 86, 80, 82, 111, 109]
        = some [97, 97, 97, 97, 97, 97, 97, 97] := by decide

/-- C10 (counterexample): the claimed invariant fails on both
constructors.  For the string-constructed `"TEST:VE"`,
`Prefix() + ":" + Data()` is `"TEST::VE"`, not `AsString()` — `Data()`
keeps the leading colon.  And the parts constructor with tag `"TEST"`
and payload `"123"` stores a non-empty string whose first colon is at
index 4, yet leaves the split point at 0. -/
theorem c10_split_invariant_counterexample :
    ((CryptoString.ofString [84, 69, 83, 84, 58, 86, 69]).PrefixPart ++ [58]
        ++ (CryptoString.ofString [84, 69, 83, 84, 58, 86, 69]).Data
      ≠ (CryptoString.ofString [84, 69, 83, 84, 58, 86, 69]).AsString)
    ∧ (CryptoString.ofParts [84, 69, 83, 84] [49, 50, 51]).AsString ≠ []
    ∧ colonIndex ((CryptoString.ofParts [84, 69, 83, 84] [49, 50, 51]).AsString) = 4
    ∧ (CryptoString.ofParts [84, 69, 83, 84] [49, 50, 51]).fSplitPoint = 0 := by decide

/-- C10 (amended): for a CryptoString constructed from a candidate string
that the pattern accepts, the cached split point is the index of the
first colon in the stored string, `Prefix()` is exactly the tag (the
characters before that colon), and `Prefix() ++ Data()` — not
`Prefix() ++ ":" ++ Data()` — equals `AsString()`, because `Data()`
retains the leading colon.  The parts-based constructor always leaves
the split point at 0, wherever the first colon of its stored string is. -/
theorem c10_amended_split_invariant (s : List Nat) (h : cryptoStringMatch s = true) :
    (CryptoString.ofString s).fSplitPoint = colonIndex s
    ∧ (CryptoString.ofString s).PrefixPart ++ (CryptoString.ofString s).Data
        = (CryptoString.ofString s).AsString
    ∧ (CryptoString.ofString s).PrefixPart = (s.take (colonIndex s))
    ∧ ∀ a p : List Nat, (CryptoString.ofParts a p).fSplitPoint = 0 := by
  refine ⟨?_, ?_, ?_, ?_⟩
  · simp [CryptoString.ofString, h]
  · simp [CryptoString.ofString, h, CryptoString.PrefixPart, CryptoString.Data,
      CryptoString.AsString, List.take_append_drop]
  · simp [CryptoString.ofString, h, CryptoString.PrefixPart]
  · intro a p
    unfold CryptoString.ofParts
    split
    · rfl
    · split <;> rfl

/-- C10 (witness): the amended invariant at the accepted input
`"TEST:VE"`. -/
theorem c10_amended_split_invariant_witness :
    (CryptoString.ofString [84, 69, 83, 84, 58, 86, 69]).fSplitPoint
        = colonIndex [84, 69, 83, 84, 58, 86, 69]
    ∧ (CryptoString.ofString [84, 69, 83, 84, 58, 86, 69]).PrefixPart
        ++ (CryptoString.ofString [84, 69, 83, 84, 58, 86, 69]).Data
        = (CryptoString.ofString [84, 69, 83, 84, 58, 86, 69]).AsString
    ∧ (CryptoString.ofString [84, 69, 83, 84, 58, 86, 69]).PrefixPart
        = ([84, 69, 83, 84, 58, 86, 69].take (colonIndex [84, 69, 83, 84, 58, 86, 69]))
    ∧ ∀ a p : List Nat, (CryptoString.ofParts a p).fSplitPoint = 0 :=
  c10_amended_split_invariant [84, 69, 83, 84, 58, 86, 69] (by decide)

end Mensago
